import Mathlib

/-!
# A shallow embedding of the jrpc2 server and channel framings

This file embeds the JSON-RPC 2.0 server dispatcher (`server.go`, package
`jrpc2`) and the `Header` and `Raw` channel framings (package `channel`) of
this repository in Lean, and proves properties of the embedded definitions.

Conventions of the embedding:

* Go byte strings are modelled as `List Char` where byte-level structure
  matters (the framing layer) and as `String` where they are opaque payloads
  (method names, params, error messages).
* A `json.RawMessage` holding a request id is modelled as `Option String`:
  `none` is the nil raw message (an absent id, i.e. a notification), and
  `some s` holds the canonical textual form of the id.
* Fallible Go functions returning `(T, error)` are modelled with
  `Except String T` or `Option T`.
* External library calls (`container/list`, `stringset`, `strconv`,
  `encoding/json`) are modelled by small Lean functions following the
  libraries' documented behavior; each such model says so in its doc string.
-/

namespace Jrpc2

/-- Modelled from the spec: the protocol version marker is the string
`"2.0"` (`jrpc2.Version`; the defining constant is outside the sources at
hand, but the spec fixes it: "`jsonrpc` is `\"2.0\"`"). -/
def Version : String := "2.0"

/-- Modelled from the spec: reserved error code −32700 Parse error. -/
def E_ParseError : Int := -32700

/-- Modelled from the spec: reserved error code −32600 Invalid request. -/
def E_InvalidRequest : Int := -32600

/-- Modelled from the spec: reserved error code −32601 Method not found. -/
def E_MethodNotFound : Int := -32601

/-- Modelled from the spec: reserved error code −32603 Internal error. -/
def E_InternalError : Int := -32603

/-- The wire form of a decoded request (`jrequest` in the source): version
marker `V`, id `ID` (a raw message, `none` when absent), method name `M`,
and opaque params `P`. -/
structure JRequest where
  V : String
  ID : Option String
  M : String
  P : String
deriving Repr, DecidableEq

/-- A batch of decoded requests (`jrequests` in the source). -/
abbrev JRequests := List JRequest

/-- The wire form of an error object (`jerror`): code and message (the
optional data member plays no role in the claims below). -/
structure JError where
  Cd : Int
  Msg : String
deriving Repr, DecidableEq

/-- The wire form of a response (`jresponse`): version, id, result `R` and
error `E`. -/
structure JResponse where
  V : String
  ID : Option String
  R : Option String := none
  E : Option JError := none
deriving Repr, DecidableEq

/-- An error value returned by a handler or recorded during validation,
as discriminated by the type switch in `tasks.responses`: a structured
`*jrpc2.Error` carrying a code and message, a bare `jrpc2.Code`, or any
other (plain) Go error. -/
inductive GoError where
  | structured (code : Int) (message : String)
  | codeOnly (code : Int)
  | plain (message : String)
deriving Repr, DecidableEq

/-- Modelled from the spec: `Code.Error()` renders a code as a human-readable
string (its exact text is defined outside the sources at hand and does not
affect any claim). -/
def codeMessage (c : Int) : String := "error code " ++ toString c

/-- Modelled from the spec: `(*Error).tojerror` carries a structured error's
code and message onto the wire as-is. -/
def tojerror (code : Int) (message : String) : JError := ⟨code, message⟩

/-- A dispatch task (`task` in the source): the request it serves, the
marshalled result value `val`, and the error recorded by validation or
returned by the handler. The resolved method handle is not needed by the
response construction and is omitted here. -/
structure Task where
  req : JRequest
  val : Option String := none
  err : Option GoError := none
deriving Repr, DecidableEq

/-- The response constructed for one task by the loop body of
`tasks.responses`: `none` when the request is a notification (`ID == nil`),
otherwise a response carrying the result on success or the mapped error. -/
def taskResponse (t : Task) : Option JResponse :=
  match t.req.ID with
  | none => none
  | some id =>
    some { V := Version
           ID := some id
           R := match t.err with
                | none => t.val
                | some _ => none
           E := match t.err with
                | none => none
                | some (.structured c m) => some (tojerror c m)
                | some (.codeOnly c) => some ⟨c, codeMessage c⟩
                | some (.plain m) => some ⟨E_InternalError, "internal error: " ++ m⟩ }

/-- The loop of `tasks.responses`: collect, in task order, one response per
non-notification task; notifications contribute nothing. -/
def tasksResponses (ts : List Task) : List JResponse :=
  ts.filterMap taskResponse

/-- Whether a task's request is a call (has an id) rather than a
notification. -/
def isCall (t : Task) : Bool := t.req.ID ≠ none

/-! ## Request validation (`Server.nextRequest`) -/

/-- A decimal digit test for id canonicalization. -/
def isDigit (c : Char) : Bool := decide ('0' ≤ c ∧ c ≤ '9')

/-- Parse a nonempty all-digit character list as a natural number. -/
def parseDigitsNat (cs : List Char) : Option Nat :=
  if cs = [] then none
  else cs.foldl
    (fun acc c => acc.bind fun a =>
      if isDigit c then some (a * 10 + (c.toNat - 48)) else none)
    (some 0)

/-- Minimal decimal rendering of a possibly-signed integer id. -/
def canonNum (s : String) : String :=
  match s.data with
  | '-' :: rest =>
    match parseDigitsNat rest with
    | some n => if n = 0 then "0" else "-" ++ Nat.repr n
    | none => s
  | ds =>
    match parseDigitsNat ds with
    | some n => Nat.repr n
    | none => s

/-- Modelled from the spec: `fixID` normalizes a request id on ingress
("numeric IDs are canonicalized to their minimal JSON form so that duplicate
detection compares equal values equally"; `fixID` itself is outside the
sources at hand). Integer ids are re-rendered in minimal decimal form;
other ids pass through unchanged; an absent id stays absent. -/
def fixID : Option String → Option String
  | none => none
  | some s => some (canonNum s)

/-- The conversion `string(req.ID)`: the string form of a raw id; a nil raw message
converts to the empty string. -/
def idString : Option String → String
  | none => ""
  | some s => s

/-- Go's `%q` verb on an id or method string: the string in double quotes
(escaping of special characters inside the string is not modelled; no
embedded check depends on the message text). -/
def goQuote (s : String) : String := "\"" ++ s ++ "\""

/-- Model of `stringset.Set.Add` with a single argument, per the stringset library's
documented behavior: add the string and report whether the set changed
(`true` exactly when the string was not already present). The set is
modelled as a list of its members. -/
def setAdd (used : List String) (x : String) : Bool × List String :=
  if x ∈ used then (false, used) else (true, x :: used)

/-- The check `Server.versionOK`: an empty version marker is acceptable iff the server
allows v1 requests; otherwise the marker must equal `Version`. -/
def versionOK (allow1 : Bool) (v : String) : Bool :=
  if v = "" then allow1 else v == Version

/-- The server configuration consulted by validation: the v1-compatibility
flag `allow1`, whether `s.info` is non-nil (enabling the synthetic
`rpc.serverInfo` method), and the assigner `mux`, modelled by whether
`mux.Assign(name)` resolves to a (non-nil) handler. -/
structure ServerCfg where
  allow1 : Bool
  hasInfo : Bool
  mux : String → Bool

/-- The resolver `Server.assign`: resolve a method name, special-casing
`rpc.serverInfo` when the server keeps an info record, else deferring to
the assigner. -/
def serverAssign (cfg : ServerCfg) (name : String) : Bool :=
  if cfg.hasInfo ∧ name = "rpc.serverInfo" then true else cfg.mux name

/-- The body of the validation loop in `Server.nextRequest` for one request:
normalize the id; a non-empty id already in the used set marks the task as a
duplicate (Invalid request); then the version marker, a non-empty method
name, and assigner resolution are checked in order. Returns the task and
the updated used set (`used.Add` inserts a fresh non-empty id even when a
later check fails). -/
def checkRequest (cfg : ServerCfg) (used : List String) (req0 : JRequest) :
    Task × List String :=
  let req : JRequest := { req0 with ID := fixID req0.ID }
  let id := idString req.ID
  let addRes := setAdd used id
  let used1 := if id = "" then used else addRes.2
  let t : Task :=
    { req := req
      err :=
        if id ≠ "" ∧ addRes.1 = false then
          some (.structured E_InvalidRequest ("duplicate request id " ++ goQuote id))
        else if ¬ versionOK cfg.allow1 req.V then
          some (.structured E_InvalidRequest
            ("incorrect version marker " ++ goQuote req.V))
        else if req.M = "" then
          some (.structured E_InvalidRequest "empty method name")
        else if ¬ serverAssign cfg req.M then
          some (.structured E_MethodNotFound ("no such method " ++ goQuote req.M))
        else none }
  (t, used1)

/-- The whole validation loop of `Server.nextRequest` over a dequeued batch,
threading the used set left to right and collecting the tasks in order. -/
def checkBatch (cfg : ServerCfg) (used : List String) :
    JRequests → List Task × List String
  | [] => ([], used)
  | r :: rs =>
    let tu := checkRequest cfg used r
    let rest := checkBatch cfg tu.2 rs
    (tu.1 :: rest.1, rest.2)

/-- The body of `Server.dispatch`: obtain the handler outcome for a request; an error
from a notification's handler is discarded (`nil, nil`), an error from a
call propagates, and a success value is marshalled. The combined
context-hook/handler/marshal outcome is a parameter `handler`. -/
def dispatch (handler : JRequest → Except GoError String) (req : JRequest) :
    Except GoError (Option String) :=
  match handler req with
  | .error e => if req.ID = none then .ok none else .error e
  | .ok v => .ok (some v)

/-- Execution of one task by the closure returned from `nextRequest`:
tasks already carrying a validation error are skipped; otherwise `t.val`
and `t.err` are both assigned from `s.dispatch`. -/
def runTask (handler : JRequest → Except GoError String) (t : Task) : Task :=
  if t.err ≠ none then t
  else
    match dispatch handler t.req with
    | .ok v => { t with val := v, err := none }
    | .error e => { t with val := none, err := some e }

/-- The full processing of one dequeued batch (`nextRequest` validation,
handler execution, and `tasks.responses`), returning the responses to be
encoded and the used set afterwards. Handlers run concurrently in the
source, but each task's outcome depends only on its own request, so the
map is a faithful sequentialization. No statement between `Start` and
`Wait` in the source removes ids from `s.used`; in particular the
response-writing closure leaves the used set exactly as validation left
it. -/
def processBatch (cfg : ServerCfg) (handler : JRequest → Except GoError String)
    (used : List String) (batch : JRequests) : List JResponse × List String :=
  let tu := checkBatch cfg used batch
  (tasksResponses (tu.1.map (runTask handler)), tu.2)

/-! ## The receive loop (`Server.read`) -/

/-- The Go errors distinguished by the receive loop: the two recoverable
JSON decode errors, a JSON syntax error, `io.EOF`, and any other
(I/O) error. `none` stands for a nil error. -/
inductive GoIOError where
  | jsonTypeErr
  | jsonUnsupportedTypeErr
  | jsonSyntaxErr
  | eof
  | other (msg : String)
deriving Repr, DecidableEq

/-- The predicate `isRecoverableJSONError`: the type switch recognizing
`*json.UnmarshalTypeError` and `*json.UnsupportedTypeError` as recoverable;
syntax errors and everything else (including a nil error) are not. -/
def isRecoverableJSONError : Option GoIOError → Bool
  | some .jsonTypeErr => true
  | some .jsonUnsupportedTypeErr => true
  | _ => false

/-- The response encoded by `Server.pushError`: a standalone error response
carrying the given id (nil encodes as JSON null) and error. -/
def pushErrorResponse (id : Option String) (code : Int) (msg : String) :
    JResponse :=
  { V := Version, ID := id, E := some ⟨code, msg⟩ }

/-- The externally visible effect of one iteration of the receive loop:
emit a standalone error response and continue, terminate the session via
`s.stop(err)`, or push the batch onto the inbound queue and broadcast to
the dispatcher. -/
inductive ReadEffect where
  | emit (rsp : JResponse)
  | terminate (err : Option GoIOError)
  | enqueue (batch : JRequests)
deriving Repr, DecidableEq

/-- One iteration of `Server.read` after `ch.Recv()` returned `(bits,
recvErr)`: decode is attempted when the receive succeeded or hit EOF with a
non-empty partial payload; then a recoverable decode error reports a parse
error, any other error stops the session, an empty batch reports an invalid
request, and a non-empty batch is enqueued. `decode` stands for
`json.Unmarshal` into `jrequests`. -/
def readStep (decode : String → Except GoIOError JRequests)
    (bits : String) (recvErr : Option GoIOError) : ReadEffect :=
  let decoded : JRequests × Option GoIOError :=
    if recvErr = none ∨ (recvErr = some .eof ∧ bits.length ≠ 0) then
      match decode bits with
      | .ok b => (b, none)
      | .error e => ([], some e)
    else ([], recvErr)
  if isRecoverableJSONError decoded.2 then
    .emit (pushErrorResponse none E_ParseError "invalid JSON request message")
  else if decoded.2 ≠ none then
    .terminate decoded.2
  else if decoded.1.length = 0 then
    .emit (pushErrorResponse none E_InvalidRequest "empty request batch")
  else
    .enqueue decoded.1

/-- The inbound queue update corresponding to a read effect: only a
successful decode pushes its batch, at the back of the queue
(`s.inq.PushBack`). -/
def applyRead (inq : List JRequests) : ReadEffect → List JRequests
  | .enqueue b => inq ++ [b]
  | _ => inq

/-! ## Shutdown (`Server.stop`) -/

/-- The keep-filter applied to one queued batch by the shutdown walk in
`Server.stop`: the code keeps exactly the requests whose id is present
(`req.ID != nil`), i.e. the pending calls — although the comment above the
loop and the log line inside it say it retains notifications. -/
def stopKeep (batch : JRequests) : JRequests :=
  batch.filter (fun req => req.ID.isSome)

/-- The inbound-queue walk of `Server.stop`, under `container/list`
semantics. `cur` starts at `Front()` and `end` is fixed at `Back()`, and
the loop runs while `cur != end`, so the last element is never visited.
With an empty queue `Front() == Back() == nil` and with a single element
`Front() == Back()`, so in both cases the body never runs and the queue is
unchanged. With two or more elements the body removes `cur`, which per
`container/list.List.Remove` clears the element's links; the post-statement
`cur = cur.Next()` on the removed element then yields nil, the condition
`nil != end` still holds, and `cur.Value` dereferences a nil element: the
walk panics (modelled as `none`). -/
def stopWalk (inq : List JRequests) : Option (List JRequests) :=
  match inq with
  | [] => some []
  | [b] => some [b]
  | _ :: _ :: _ => none

/-- A call request (id present) used in concrete scenarios. -/
def callReq : JRequest := { V := "2.0", ID := some "1", M := "m", P := "" }

/-- A notification request (id absent) used in concrete scenarios. -/
def noteReq : JRequest := { V := "2.0", ID := none, M := "n", P := "" }

/-! ## The Header framing (package `channel`, `Header` / `hdr`)

Byte strings on the wire are modelled as `List Char`. -/

/-- Wire byte strings. -/
abbrev Bytes := List Char

/-- The decimal digit character for `d < 10`. -/
def digitChar (d : Nat) : Char :=
  match d with
  | 0 => '0' | 1 => '1' | 2 => '2' | 3 => '3' | 4 => '4'
  | 5 => '5' | 6 => '6' | 7 => '7' | 8 => '8' | _ => '9'

/-- The digit-accumulating core of `strconv.Itoa` for naturals. -/
def itoaCore (n : Nat) (acc : Bytes) : Bytes :=
  if h : n = 0 then acc
  else itoaCore (n / 10) (digitChar (n % 10) :: acc)
termination_by n
decreasing_by exact Nat.div_lt_self (Nat.pos_of_ne_zero h) (by norm_num)

/-- Model of `strconv.Itoa` on a natural number (message lengths are never
negative): minimal decimal digits. -/
def itoa (n : Nat) : Bytes := if n = 0 then ['0'] else itoaCore n []

/-- Model of `strconv.Atoi`, per its documented behavior: an optional single sign
followed by a nonempty run of decimal digits; anything else is an error
(`none`). Out-of-range errors for integers beyond 64 bits are not
modelled. -/
def atoi (s : Bytes) : Option Int :=
  match s with
  | [] => none
  | c :: ds =>
    if c = '-' then (parseDigitsNat ds).map (fun n => -(n : Int))
    else if c = '+' then (parseDigitsNat ds).map (fun n => (n : Int))
    else (parseDigitsNat (c :: ds)).map (fun n => (n : Int))

/-- Model of `bufio.Reader.ReadString` at delimiter LF: read up to and including the first
newline. The result is `(raw, rest, eof)` where `eof` marks that the input
ran out before a newline was found (`io.EOF` with the partial line in
`raw`). -/
def readLine : Bytes → Bytes × Bytes × Bool
  | [] => ([], [], true)
  | c :: cs =>
    if c = '\n' then ([c], cs, false)
    else
      let r := readLine cs
      (c :: r.1, r.2.1, r.2.2)

/-- Membership in the cutset of `strings.TrimRight(raw, "\r\n")`. -/
def isCRLF (c : Char) : Bool := c == '\r' || c == '\n'

/-- Model of `strings.TrimRight` with cutset CR LF: drop the maximal trailing run of CR and
LF characters. -/
def trimRightCRLF (s : Bytes) : Bytes := (s.reverse.dropWhile isCRLF).reverse

/-- Model of `strings.SplitN` at the first colon with limit 2: `none` when the line has no colon
(one part), otherwise the text before the first colon and everything after
it. -/
def splitColon : Bytes → Option (Bytes × Bytes)
  | [] => none
  | c :: cs =>
    if c = ':' then some ([], cs)
    else (splitColon cs).map (fun p => (c :: p.1, p.2))

/-- ASCII lowering of one character (`strings.ToLower` restricted to the
ASCII header keys that occur here). -/
def lowerChar (c : Char) : Char :=
  if 'A' ≤ c ∧ c ≤ 'Z' then Char.ofNat (c.toNat + 32) else c

/-- Model of `strings.ToLower` on a header key. -/
def toLowerB (s : Bytes) : Bytes := s.map lowerChar

/-- White space as trimmed by `strings.TrimSpace` (the ASCII range; header
values here are ASCII). -/
def isSpace (c : Char) : Bool :=
  c == ' ' || c == '\t' || c == '\n' || c == '\x0b' || c == '\x0c' || c == '\r'

/-- Model of `strings.TrimSpace`. -/
def trimSpace (s : Bytes) : Bytes :=
  ((s.dropWhile isSpace).reverse.dropWhile isSpace).reverse

/-- The header map `p`, keyed by lowercased field name; assignment
overwrites an existing key, as a Go map does. -/
abbrev Headers := List (Bytes × Bytes)

/-- Assignment `p[k] = v` on the header map. -/
def hset (p : Headers) (k v : Bytes) : Headers :=
  match p with
  | [] => [(k, v)]
  | kv :: rest => if kv.1 = k then (k, v) :: rest else kv :: hset rest k v

/-- Lookup `p[k]` with its presence bit. -/
def hget (p : Headers) (k : Bytes) : Option Bytes :=
  match p with
  | [] => none
  | kv :: rest => if kv.1 = k then some kv.2 else hget rest k

/-- The lowercased `Content-Type` key. -/
def ctKey : Bytes := "content-type".data

/-- The lowercased `Content-Length` key. -/
def clKey : Bytes := "content-length".data

/-- The header-reading loop of `hdr.Recv`: read lines until a blank line;
a line read at EOF is processed if non-empty, an empty read at EOF is an
error; a line with no colon is an invalid header line; otherwise the
lowercased key maps to the space-trimmed value. Returns the header map and
the unconsumed input. -/
def readHeaders (stream : Bytes) (p : Headers) : Except String (Headers × Bytes) :=
  let r := readLine stream
  if r.1 = [] then .error "EOF"
  else
    let line := trimRightCRLF r.1
    if line = [] then .ok (p, r.2.1)
    else
      match splitColon line with
      | some kv => readHeaders r.2.1 (hset p (toLowerB kv.1) (trimSpace kv.2))
      | none => .error "invalid header line"
termination_by stream.length
decreasing_by
  have h1 : ∀ s : Bytes,
      (readLine s).1.length + (readLine s).2.1.length = s.length := by
    intro s
    induction s with
    | nil => rfl
    | cons c cs ih =>
      by_cases h : c = '\n' <;> simp [readLine, h] <;> omega
  have h2 : (readLine stream).1 ≠ [] := by assumption
  have h3 : (readLine stream).1.length ≠ 0 := by
    simpa [List.length_eq_zero] using h2
  have h4 := h1 stream
  omega

/-- The required `Content-Length` handling of `hdr.Recv`: missing is an
error; `strconv.Atoi` failure or a negative size is an invalid
content-length. -/
def checkContentLength (p : Headers) : Except String Nat :=
  match hget p clKey with
  | none => .error "missing required content-length"
  | some clen =>
    match atoi clen with
    | none => .error "invalid content-length"
    | some size =>
      if size < 0 then .error "invalid content-length" else .ok size.toNat

/-- The post-parse checks of `hdr.Recv`: a present `content-type` must equal
the channel's MIME type, then the content length is extracted; all other
header fields are ignored. -/
def hdrChecks (mtype : Bytes) (p : Headers) : Except String Nat :=
  match hget p ctKey with
  | some ctype =>
    if ctype ≠ mtype then .error "invalid content-type" else checkContentLength p
  | none => checkContentLength p

/-- Model of `io.ReadFull` for `n` bytes from the buffered stream: an error when the
stream is shorter, otherwise the bytes and the remainder. -/
def readFull (stream : Bytes) (n : Nat) : Except String (Bytes × Bytes) :=
  if stream.length < n then .error "unexpected EOF"
  else .ok (stream.take n, stream.drop n)

/-- The receiver `hdr.Recv` end to end on a byte stream: parse the header block, run the
checks, and read exactly the declared number of payload bytes, returning
the payload and the unread remainder of the stream. -/
def hdrRecv (mtype : Bytes) (stream : Bytes) : Except String (Bytes × Bytes) :=
  match readHeaders stream [] with
  | .error e => .error e
  | .ok pr =>
    match hdrChecks mtype pr.1 with
    | .error e => .error e
    | .ok size => readFull pr.2 size

/-- The sender `hdr.Send`: the bytes written for one message — the `Content-Type` line
exactly when the factory's MIME type was non-empty, then the
`Content-Length` line, a blank line, and the payload. -/
def hdrSend (mimeType : Bytes) (msg : Bytes) : Bytes :=
  (if mimeType = [] then []
   else "Content-Type: ".data ++ mimeType ++ ['\r', '\n'])
  ++ "Content-Length: ".data ++ itoa msg.length ++ ['\r', '\n', '\r', '\n']
  ++ msg

/-! ## The Raw framing (package `channel`, `Raw` / `raw`) -/

/-- JSON insignificant whitespace, skipped by the decoder before a value. -/
def isJSONSpace (c : Char) : Bool :=
  c == ' ' || c == '\t' || c == '\n' || c == '\r'

/-- Bytes that can continue a JSON number token. -/
def isNumByte (c : Char) : Bool :=
  isDigit c || c == '-' || c == '+' || c == '.' || c == 'e' || c == 'E'

/-- Scan the remainder of a JSON string after its opening quote: stop at the
first unescaped closing quote, treating a backslash as escaping the next
character. Returns the consumed bytes (closing quote included) and the
rest; `none` when the input ends inside the string. -/
def scanStringBody (esc : Bool) : Bytes → Option (Bytes × Bytes)
  | [] => none
  | c :: cs =>
    if esc then (scanStringBody false cs).map (fun p => (c :: p.1, p.2))
    else if c = '\\' then (scanStringBody true cs).map (fun p => (c :: p.1, p.2))
    else if c = '"' then some ([c], cs)
    else (scanStringBody false cs).map (fun p => (c :: p.1, p.2))

/-- Scan the remainder of a JSON object or array after its opening bracket:
track the bracket depth, skipping over strings (with escapes). Returns the
consumed bytes (closing bracket included) and the rest; `none` when the
input ends first. -/
def scanCompound (depth : Nat) (instr esc : Bool) : Bytes → Option (Bytes × Bytes)
  | [] => none
  | c :: cs =>
    if esc then (scanCompound depth instr false cs).map (fun p => (c :: p.1, p.2))
    else if instr then
      if c = '\\' then (scanCompound depth true true cs).map (fun p => (c :: p.1, p.2))
      else if c = '"' then (scanCompound depth false false cs).map (fun p => (c :: p.1, p.2))
      else (scanCompound depth true false cs).map (fun p => (c :: p.1, p.2))
    else if c = '"' then (scanCompound depth true false cs).map (fun p => (c :: p.1, p.2))
    else if c = '{' ∨ c = '[' then
      (scanCompound (depth + 1) false false cs).map (fun p => (c :: p.1, p.2))
    else if c = '}' ∨ c = ']' then
      if depth = 1 then some ([c], cs)
      else (scanCompound (depth - 1) false false cs).map (fun p => (c :: p.1, p.2))
    else (scanCompound depth false false cs).map (fun p => (c :: p.1, p.2))

/-- Match an exact literal tail, returning the rest of the input. -/
def dropExact : Bytes → Bytes → Option Bytes
  | [], s => some s
  | _ :: _, [] => none
  | l :: ls, c :: cs => if c = l then dropExact ls cs else none

/-- Modelled from the documented behavior of `encoding/json.Decoder.Decode`
into a `json.RawMessage`, as used by `raw.Recv`: skip leading JSON
whitespace, then deliver exactly the bytes of the next JSON value — the raw
message excludes the surrounding whitespace. Strings, objects, arrays, the
three literals, and numbers (as maximal runs of number bytes) are scanned;
the model is faithful for well-formed values and does not reproduce the
decoder's rejection of malformed ones. -/
def jsonNextValue (stream : Bytes) : Option (Bytes × Bytes) :=
  match stream.dropWhile isJSONSpace with
  | [] => none
  | c :: cs =>
    if c = '"' then (scanStringBody false cs).map (fun p => (c :: p.1, p.2))
    else if c = '{' ∨ c = '[' then
      (scanCompound 1 false false cs).map (fun p => (c :: p.1, p.2))
    else if c = 't' then (dropExact "rue".data cs).map (fun r => ("true".data, r))
    else if c = 'f' then (dropExact "alse".data cs).map (fun r => ("false".data, r))
    else if c = 'n' then (dropExact "ull".data cs).map (fun r => ("null".data, r))
    else if isNumByte c then
      some ((c :: cs).takeWhile isNumByte, (c :: cs).dropWhile isNumByte)
    else none

/-- The sender `raw.Send`: the message bytes are written to the stream verbatim, with
no framing added. -/
def rawSend (msg : Bytes) : Bytes := msg

/-- The receiver `raw.Recv`: decode the next JSON value from the stream into a raw
message and return its bytes. -/
def rawRecv (stream : Bytes) : Option Bytes := (jsonNextValue stream).map (·.1)

/-- The numeric value of a digit string, accumulated left to right onto
`a` (a specification helper for `itoa` and `parseDigitsNat`). -/
def digitsVal (a : Nat) (cs : Bytes) : Nat :=
  cs.foldl (fun x c => x * 10 + (c.toNat - 48)) a

/-- Whether a MIME type is header-safe: free of CR and LF, and unchanged by
the space-trimming a received header value undergoes. Both preset MIME
types and the empty string satisfy this. -/
def mimeOK (mime : Bytes) : Prop :=
  (∀ c ∈ mime, isCRLF c = false) ∧ trimSpace (' ' :: mime) = mime

instance (mime : Bytes) : Decidable (mimeOK mime) := by
  unfold mimeOK; infer_instance

/-- A server configuration with one registered method `"m"`, no
introspection, and v1 compatibility off; used in concrete runs. -/
def cfgM : ServerCfg := ⟨false, false, fun n => n == "m"⟩

/-- A handler outcome that succeeds with the literal `"5"`. -/
def okHandler : JRequest → Except GoError String := fun _ => .ok "5"

/-- A handler outcome that fails with a plain (unstructured) error. -/
def failHandler : JRequest → Except GoError String := fun _ => .error (.plain "boom")

/-- A handler outcome that fails with a structured error carrying a code. -/
def codeHandler : JRequest → Except GoError String :=
  fun _ => .error (.structured (-32000) "sys")

theorem dropWhile_eq_self_of {p : Char → Bool} {s : Bytes}
    (h : ∀ c ∈ s, p c = false) : s.dropWhile p = s := by
  cases s with
  | nil => rfl
  | cons a l => simp [List.dropWhile_cons, h a (List.mem_cons_self a l)]

theorem readLine_rest_length (s : Bytes) :
    (readLine s).1.length + (readLine s).2.1.length = s.length := by
  induction s with
  | nil => rfl
  | cons c cs ih =>
    by_cases h : c = '\n' <;> simp [readLine, h] <;> omega

theorem readLine_append (line rest : Bytes) (h : '\n' ∉ line) :
    readLine (line ++ '\n' :: rest) = (line ++ ['\n'], rest, false) := by
  induction line with
  | nil => simp [readLine]
  | cons c cs ih =>
    have hc : c ≠ '\n' := fun hc => h (hc ▸ List.mem_cons_self c cs)
    have hcs : '\n' ∉ cs := fun hm => h (List.mem_cons_of_mem c hm)
    simp [readLine, hc, ih hcs]

theorem trimRightCRLF_append (s : Bytes) (h : ∀ c ∈ s, isCRLF c = false) :
    trimRightCRLF (s ++ ['\r', '\n']) = s := by
  unfold trimRightCRLF
  rw [List.reverse_append]
  have h1 : ∀ c ∈ s.reverse, isCRLF c = false := by
    intro c hc; exact h c (List.mem_reverse.mp hc)
  have e1 : isCRLF '\n' = true := by decide
  have e2 : isCRLF '\r' = true := by decide
  have h2 : List.dropWhile isCRLF ('\n' :: '\r' :: s.reverse) = s.reverse := by
    simp [List.dropWhile_cons, e1, e2, dropWhile_eq_self_of h1]
  simp [h2]

theorem trimRightCRLF_crlf : trimRightCRLF ['\r', '\n'] = [] := by decide

theorem splitColon_append (k v : Bytes) (h : ':' ∉ k) :
    splitColon (k ++ ':' :: v) = some (k, v) := by
  induction k with
  | nil => simp [splitColon]
  | cons c cs ih =>
    have hc : c ≠ ':' := fun hc => h (hc ▸ List.mem_cons_self c cs)
    have hcs : ':' ∉ cs := fun hm => h (List.mem_cons_of_mem c hm)
    simp [splitColon, hc, ih hcs]

theorem trimSpace_space_cons (s : Bytes) (h : ∀ c ∈ s, isSpace c = false) :
    trimSpace (' ' :: s) = s := by
  unfold trimSpace
  rw [List.dropWhile_cons]
  norm_num [isSpace]
  rw [dropWhile_eq_self_of h]
  have h1 : ∀ c ∈ s.reverse, isSpace c = false := by
    intro c hc; exact h c (List.mem_reverse.mp hc)
  rw [dropWhile_eq_self_of h1, List.reverse_reverse]

theorem digitChar_isDigit (d : Nat) : isDigit (digitChar d) = true := by
  rcases d with _|_|_|_|_|_|_|_|_|n <;>
    first
    | decide
    | (show isDigit '9' = true; decide)

theorem digitChar_toNat (d : Nat) (h : d < 10) : (digitChar d).toNat = 48 + d := by
  interval_cases d <;> rfl

theorem isDigit_ne {c : Char} (h : isDigit c = true) (d : Char)
    (hd : isDigit d = false) : c ≠ d := by
  intro he; rw [he, hd] at h; exact Bool.noConfusion h

theorem isDigit_not_space {c : Char} (h : isDigit c = true) : isSpace c = false := by
  have h1 := isDigit_ne h ' ' (by decide)
  have h2 := isDigit_ne h '\t' (by decide)
  have h3 := isDigit_ne h '\n' (by decide)
  have h4 := isDigit_ne h '\x0b' (by decide)
  have h5 := isDigit_ne h '\x0c' (by decide)
  have h6 := isDigit_ne h '\r' (by decide)
  simp [isSpace, beq_eq_false_iff_ne, h1, h2, h3, h4, h5, h6]

theorem isDigit_not_crlf {c : Char} (h : isDigit c = true) : isCRLF c = false := by
  have h1 := isDigit_ne h '\r' (by decide)
  have h2 := isDigit_ne h '\n' (by decide)
  simp [isCRLF, beq_eq_false_iff_ne, h1, h2]

theorem itoaCore_append (n : Nat) : ∀ acc, itoaCore n acc = itoaCore n [] ++ acc := by
  induction n using Nat.strong_induction_on with
  | _ n ih =>
    intro acc
    by_cases h : n = 0
    · subst h
      have h0 : itoaCore 0 [] = [] := by rw [itoaCore]; simp
      have h0a : itoaCore 0 acc = acc := by rw [itoaCore]; simp
      rw [h0, h0a]
      simp
    · have hlt : n / 10 < n := Nat.div_lt_self (Nat.pos_of_ne_zero h) (by norm_num)
      rw [itoaCore]
      conv_rhs => rw [itoaCore]
      simp only [h, dite_false]
      rw [ih (n / 10) hlt (digitChar (n % 10) :: acc),
        ih (n / 10) hlt [digitChar (n % 10)]]
      simp

theorem digitsVal_append (a : Nat) (l1 l2 : Bytes) :
    digitsVal a (l1 ++ l2) = digitsVal (digitsVal a l1) l2 := by
  unfold digitsVal; rw [List.foldl_append]

theorem digitsVal_acc (cs : Bytes) :
    ∀ a, digitsVal a cs = a * 10 ^ cs.length + digitsVal 0 cs := by
  induction cs with
  | nil => intro a; simp [digitsVal]
  | cons c cs ih =>
    intro a
    show digitsVal (a * 10 + (c.toNat - 48)) cs
      = a * 10 ^ (c :: cs).length + digitsVal (0 * 10 + (c.toNat - 48)) cs
    rw [ih (a * 10 + (c.toNat - 48)), ih (0 * 10 + (c.toNat - 48))]
    simp [List.length_cons, pow_succ]
    ring

theorem itoaCore_spec (n : Nat) :
    (∀ c ∈ itoaCore n [], isDigit c = true) ∧ digitsVal 0 (itoaCore n []) = n := by
  induction n using Nat.strong_induction_on with
  | _ n ih =>
    by_cases h : n = 0
    · subst h
      constructor
      · intro c hc; rw [itoaCore] at hc; simp at hc
      · rw [itoaCore]; simp [digitsVal]
    · have hlt : n / 10 < n := Nat.div_lt_self (Nat.pos_of_ne_zero h) (by norm_num)
      have hrec := ih (n / 10) hlt
      have hun : itoaCore n [] = itoaCore (n / 10) [] ++ [digitChar (n % 10)] := by
        rw [itoaCore]
        simp only [h, dite_false]
        exact itoaCore_append (n / 10) [digitChar (n % 10)]
      constructor
      · intro c hc
        rw [hun] at hc
        rcases List.mem_append.mp hc with h1 | h2
        · exact hrec.1 c h1
        · simp at h2; subst h2; exact digitChar_isDigit _
      · rw [hun, digitsVal_append, hrec.2]
        show digitsVal (n / 10) [digitChar (n % 10)] = n
        unfold digitsVal
        simp only [List.foldl_cons, List.foldl_nil]
        rw [digitChar_toNat (n % 10) (Nat.mod_lt n (by norm_num))]
        omega

theorem itoa_ne_nil (n : Nat) : itoa n ≠ [] := by
  unfold itoa
  by_cases h : n = 0
  · simp [h]
  · simp only [h, if_false]
    rw [itoaCore]
    simp only [h, dite_false]
    rw [itoaCore_append]
    simp

theorem itoa_digits (n : Nat) : ∀ c ∈ itoa n, isDigit c = true := by
  unfold itoa
  by_cases h : n = 0
  · simp only [h, if_true]
    intro c hc
    simp at hc
    subst hc
    decide
  · simp only [h, if_false]
    exact (itoaCore_spec n).1

theorem parseDigits_foldl (cs : Bytes) :
    ∀ a : Nat, (∀ c ∈ cs, isDigit c = true) →
    cs.foldl
      (fun acc c => acc.bind fun a =>
        if isDigit c then some (a * 10 + (c.toNat - 48)) else none)
      (some a) = some (digitsVal a cs) := by
  induction cs with
  | nil => intro a _; rfl
  | cons c cs ih =>
    intro a h
    have hc : isDigit c = true := h c (List.mem_cons_self c cs)
    have hstep :
        ((some a).bind fun x =>
          if isDigit c then some (x * 10 + (c.toNat - 48)) else none)
          = some (a * 10 + (c.toNat - 48)) := by
      simp [hc]
    rw [List.foldl_cons]
    show List.foldl _
        ((some a).bind fun x =>
          if isDigit c then some (x * 10 + (c.toNat - 48)) else none) cs = _
    rw [hstep]
    exact ih (a * 10 + (c.toNat - 48)) (fun d hd => h d (List.mem_cons_of_mem c hd))

theorem parseDigitsNat_eq (cs : Bytes) (hne : cs ≠ [])
    (h : ∀ c ∈ cs, isDigit c = true) :
    parseDigitsNat cs = some (digitsVal 0 cs) := by
  unfold parseDigitsNat
  simp only [hne, if_false]
  exact parseDigits_foldl cs 0 h

theorem itoa_val (n : Nat) : parseDigitsNat (itoa n) = some n := by
  by_cases h : n = 0
  · subst h; rfl
  · rw [parseDigitsNat_eq (itoa n) (itoa_ne_nil n) (itoa_digits n)]
    unfold itoa
    simp only [h, if_false]
    exact congrArg some (itoaCore_spec n).2

theorem atoi_itoa (n : Nat) : atoi (itoa n) = some (n : Int) := by
  have hd := itoa_digits n
  have hne := itoa_ne_nil n
  have hval := itoa_val n
  cases hcs : itoa n with
  | nil => exact absurd hcs hne
  | cons c cs =>
    have hc : isDigit c = true := by
      rw [hcs] at hd; exact hd c (List.mem_cons_self c cs)
    have hminus : c ≠ '-' := isDigit_ne hc '-' (by decide)
    have hplus : c ≠ '+' := isDigit_ne hc '+' (by decide)
    rw [hcs] at hval
    unfold atoi
    simp [hminus, hplus, hval]

theorem readHeaders_header_line (k v rest : Bytes) (p : Headers)
    (hk : ':' ∉ k) (hcr : ∀ c ∈ k ++ ':' :: v, isCRLF c = false) :
    readHeaders (k ++ (':' :: (v ++ ('\r' :: '\n' :: rest)))) p
      = readHeaders rest (hset p (toLowerB k) (trimSpace v)) := by
  have hshape : k ++ (':' :: (v ++ ('\r' :: '\n' :: rest)))
      = ((k ++ ':' :: v) ++ ['\r']) ++ '\n' :: rest := by simp
  have hnl : '\n' ∉ (k ++ ':' :: v) ++ ['\r'] := by
    intro hm
    rcases List.mem_append.mp hm with h1 | h2
    · have := hcr '\n' h1; simp [isCRLF] at this
    · simp at h2
  have hline := readLine_append ((k ++ ':' :: v) ++ ['\r']) rest hnl
  have htrim : trimRightCRLF (((k ++ ':' :: v) ++ ['\r']) ++ ['\n'])
      = k ++ ':' :: v := by
    have e : ((k ++ ':' :: v) ++ ['\r']) ++ ['\n'] = (k ++ ':' :: v) ++ ['\r', '\n'] := by
      simp
    rw [e]
    exact trimRightCRLF_append _ hcr
  have hne1 : ((k ++ ':' :: v) ++ ['\r']) ++ ['\n'] ≠ [] := by simp
  have hne2 : k ++ ':' :: v ≠ [] := by simp
  rw [hshape, readHeaders]
  simp only [hline, htrim, hne1, hne2, if_false, splitColon_append k v hk]

theorem readHeaders_blank (rest : Bytes) (p : Headers) :
    readHeaders ('\r' :: '\n' :: rest) p = .ok (p, rest) := by
  have hline : readLine ('\r' :: '\n' :: rest) = (['\r', '\n'], rest, false) := by
    simp [readLine]
  rw [readHeaders]
  simp only [hline, trimRightCRLF_crlf]
  simp

theorem readHeaders_ct_line (mime rest : Bytes) (p : Headers) (h : mimeOK mime) :
    readHeaders ("Content-Type: ".data ++ (mime ++ ('\r' :: '\n' :: rest))) p
      = readHeaders rest (hset p ctKey mime) := by
  have e : "Content-Type: ".data = "Content-Type".data ++ [':', ' '] := rfl
  have hshape : "Content-Type: ".data ++ (mime ++ ('\r' :: '\n' :: rest))
      = "Content-Type".data ++ (':' :: ((' ' :: mime) ++ ('\r' :: '\n' :: rest))) := by
    rw [e]; simp
  have hconc : ∀ c ∈ "Content-Type".data, isCRLF c = false := by decide
  have hcr : ∀ c ∈ "Content-Type".data ++ ':' :: (' ' :: mime), isCRLF c = false := by
    intro c hc
    rcases List.mem_append.mp hc with h1 | h2
    · exact hconc c h1
    · rcases List.mem_cons.mp h2 with rfl | h2
      · decide
      · rcases List.mem_cons.mp h2 with rfl | h3
        · decide
        · exact h.1 c h3
  have hlow : toLowerB "Content-Type".data = ctKey := by decide
  have hts : trimSpace (' ' :: mime) = mime := h.2
  rw [hshape, readHeaders_header_line "Content-Type".data (' ' :: mime) rest p
    (by decide) hcr, hlow, hts]

theorem readHeaders_cl_line (n : Nat) (rest : Bytes) (p : Headers) :
    readHeaders ("Content-Length: ".data ++ (itoa n ++ ('\r' :: '\n' :: rest))) p
      = readHeaders rest (hset p clKey (itoa n)) := by
  have e : "Content-Length: ".data = "Content-Length".data ++ [':', ' '] := rfl
  have hshape : "Content-Length: ".data ++ (itoa n ++ ('\r' :: '\n' :: rest))
      = "Content-Length".data ++ (':' :: ((' ' :: itoa n) ++ ('\r' :: '\n' :: rest))) := by
    rw [e]; simp
  have hconc : ∀ c ∈ "Content-Length".data, isCRLF c = false := by decide
  have hcr : ∀ c ∈ "Content-Length".data ++ ':' :: (' ' :: itoa n), isCRLF c = false := by
    intro c hc
    rcases List.mem_append.mp hc with h1 | h2
    · exact hconc c h1
    · rcases List.mem_cons.mp h2 with rfl | h2
      · decide
      · rcases List.mem_cons.mp h2 with rfl | h3
        · decide
        · exact isDigit_not_crlf (itoa_digits n c h3)
  have hlow : toLowerB "Content-Length".data = clKey := by decide
  have hts : trimSpace (' ' :: itoa n) = itoa n :=
    trimSpace_space_cons (itoa n) (fun c hc => isDigit_not_space (itoa_digits n c hc))
  rw [hshape, readHeaders_header_line "Content-Length".data (' ' :: itoa n) rest p
    (by decide) hcr, hlow, hts]

theorem hdrRecv_hdrSend (mime msg : Bytes) (h : mimeOK mime) :
    hdrRecv mime (hdrSend mime msg) = .ok (msg, []) := by
  have hchecks : ∀ p0 : Headers, hget p0 ctKey = none ∨ hget p0 ctKey = some mime →
      hget p0 clKey = some (itoa msg.length) →
      hdrChecks mime p0 = .ok msg.length := by
    intro p0 hct hcl
    have hlen : checkContentLength p0 = .ok msg.length := by
      unfold checkContentLength
      rw [hcl]
      simp [atoi_itoa msg.length]
    unfold hdrChecks
    rcases hct with hct | hct <;> rw [hct] <;> simp [hlen]
  have hfull : readFull msg msg.length = .ok (msg, []) := by
    unfold readFull
    simp
  by_cases hm : mime = []
  · have hsend : hdrSend mime msg
        = "Content-Length: ".data
            ++ (itoa msg.length ++ ('\r' :: '\n' :: ('\r' :: '\n' :: msg))) := by
      unfold hdrSend
      rw [hm]
      simp
    have hhd : readHeaders (hdrSend mime msg) []
        = .ok ([(clKey, itoa msg.length)], msg) := by
      rw [hsend, readHeaders_cl_line msg.length ('\r' :: '\n' :: msg) [],
        readHeaders_blank]
      rfl
    have hc := hchecks [(clKey, itoa msg.length)] (Or.inl rfl) rfl
    unfold hdrRecv
    rw [hhd]
    simp [hc, hfull]
  · have hsend : hdrSend mime msg
        = "Content-Type: ".data
            ++ (mime ++ ('\r' :: '\n' ::
              ("Content-Length: ".data
                ++ (itoa msg.length ++ ('\r' :: '\n' :: ('\r' :: '\n' :: msg)))))) := by
      unfold hdrSend
      simp [hm]
    have hhd : readHeaders (hdrSend mime msg) []
        = .ok (hset [(ctKey, mime)] clKey (itoa msg.length), msg) := by
      rw [hsend, readHeaders_ct_line mime _ [] h]
      have : hset [] ctKey mime = [(ctKey, mime)] := rfl
      rw [this, readHeaders_cl_line msg.length ('\r' :: '\n' :: msg) [(ctKey, mime)],
        readHeaders_blank]
    have hp : hset [(ctKey, mime)] clKey (itoa msg.length)
        = [(ctKey, mime), (clKey, itoa msg.length)] := rfl
    have hct : hget [(ctKey, mime), (clKey, itoa msg.length)] ctKey = some mime := rfl
    have hcl : hget [(ctKey, mime), (clKey, itoa msg.length)] clKey
        = some (itoa msg.length) := rfl
    have hc := hchecks [(ctKey, mime), (clKey, itoa msg.length)] (Or.inr hct) hcl
    unfold hdrRecv
    rw [hhd, hp]
    simp [hc, hfull]

theorem taskResponse_eq_none_iff (t : Task) :
    taskResponse t = none ↔ t.req.ID = none := by
  unfold taskResponse
  cases h : t.req.ID <;> simp

theorem tasksResponses_length (ts : List Task) :
    (tasksResponses ts).length = (ts.filter isCall).length := by
  induction ts with
  | nil => rfl
  | cons t ts ih =>
    unfold tasksResponses at *
    cases h : t.req.ID with
    | none =>
      have hnone : taskResponse t = none := (taskResponse_eq_none_iff t).mpr h
      have hcall : isCall t = false := by simp [isCall, h]
      simp [List.filterMap_cons, hnone, List.filter_cons, hcall, ih]
    | some id =>
      have hsome : taskResponse t ≠ none := by
        intro hc
        rw [taskResponse_eq_none_iff t, h] at hc
        exact Option.noConfusion hc
      have hcall : isCall t = true := by simp [isCall, h]
      obtain ⟨r, hr⟩ := Option.ne_none_iff_exists'.mp hsome
      simp [List.filterMap_cons, hr, List.filter_cons, hcall, ih]

/-! ## Shape equations for the validation fold -/

theorem checkRequest_req (cfg : ServerCfg) (used : List String) (r : JRequest) :
    (checkRequest cfg used r).1.req = { r with ID := fixID r.ID } := rfl

theorem checkRequest_snd (cfg : ServerCfg) (used : List String) (r : JRequest) :
    (checkRequest cfg used r).2
      = if idString (fixID r.ID) = "" then used
        else (setAdd used (idString (fixID r.ID))).2 := rfl

theorem checkRequest_err (cfg : ServerCfg) (used : List String) (r : JRequest) :
    (checkRequest cfg used r).1.err
      = if idString (fixID r.ID) ≠ ""
            ∧ (setAdd used (idString (fixID r.ID))).1 = false then
          some (.structured E_InvalidRequest
            ("duplicate request id " ++ goQuote (idString (fixID r.ID))))
        else if ¬ versionOK cfg.allow1 r.V then
          some (.structured E_InvalidRequest
            ("incorrect version marker " ++ goQuote r.V))
        else if r.M = "" then
          some (.structured E_InvalidRequest "empty method name")
        else if ¬ serverAssign cfg r.M then
          some (.structured E_MethodNotFound ("no such method " ++ goQuote r.M))
        else none := rfl

theorem checkBatch_nil (cfg : ServerCfg) (used : List String) :
    checkBatch cfg used [] = ([], used) := rfl

theorem checkBatch_cons (cfg : ServerCfg) (used : List String) (r : JRequest)
    (rs : JRequests) :
    checkBatch cfg used (r :: rs)
      = ((checkRequest cfg used r).1
            :: (checkBatch cfg (checkRequest cfg used r).2 rs).1,
         (checkBatch cfg (checkRequest cfg used r).2 rs).2) := rfl

theorem processBatch_fst (cfg : ServerCfg)
    (handler : JRequest → Except GoError String) (used : List String)
    (batch : JRequests) :
    (processBatch cfg handler used batch).1
      = tasksResponses ((checkBatch cfg used batch).1.map (runTask handler)) := rfl

theorem processBatch_snd (cfg : ServerCfg)
    (handler : JRequest → Except GoError String) (used : List String)
    (batch : JRequests) :
    (processBatch cfg handler used batch).2 = (checkBatch cfg used batch).2 := rfl

theorem fixID_isSome (x : Option String) : (fixID x).isSome = x.isSome := by
  cases x <;> rfl

theorem runTask_req (handler : JRequest → Except GoError String) (t : Task) :
    (runTask handler t).req = t.req := by
  unfold runTask
  by_cases h : t.err ≠ none
  · simp [h]
  · simp only [h, if_false]
    cases hd : dispatch handler t.req with
    | ok v => simp
    | error e => simp

theorem isCall_checkRequest (cfg : ServerCfg) (used : List String) (r : JRequest) :
    isCall (checkRequest cfg used r).1 = r.ID.isSome := by
  unfold isCall
  rw [checkRequest_req]
  cases r.ID <;> rfl

theorem checkRequest_used_mono (cfg : ServerCfg) (used : List String) (r : JRequest) :
    used ⊆ (checkRequest cfg used r).2 := by
  rw [checkRequest_snd]
  by_cases h : idString (fixID r.ID) = ""
  · simp [h]
  · simp only [h, if_false]
    unfold setAdd
    by_cases h2 : idString (fixID r.ID) ∈ used
    · simp [h2]
    · simp only [h2, if_false]
      exact List.subset_cons_self _ _

theorem checkBatch_used_mono (cfg : ServerCfg) (batch : JRequests) :
    ∀ used : List String, used ⊆ (checkBatch cfg used batch).2 := by
  induction batch with
  | nil => intro used; rw [checkBatch_nil]; exact fun x hx => hx
  | cons r rs ih =>
    intro used
    rw [checkBatch_cons]
    exact (checkRequest_used_mono cfg used r).trans
      (ih (checkRequest cfg used r).2)

theorem checkBatch_filter_length (cfg : ServerCfg) (batch : JRequests) :
    ∀ used : List String,
      ((checkBatch cfg used batch).1.filter isCall).length
        = (batch.filter (fun r => r.ID.isSome)).length := by
  induction batch with
  | nil => intro used; rfl
  | cons r rs ih =>
    intro used
    rw [checkBatch_cons]
    simp only [List.filter_cons, isCall_checkRequest]
    by_cases h : r.ID.isSome <;> simp [h, ih]

theorem filter_isCall_map_runTask (handler : JRequest → Except GoError String)
    (ts : List Task) :
    ((ts.map (runTask handler)).filter isCall).length
      = (ts.filter isCall).length := by
  induction ts with
  | nil => rfl
  | cons t ts ih =>
    simp only [List.map_cons, List.filter_cons]
    have hc : isCall (runTask handler t) = isCall t := by
      unfold isCall; rw [runTask_req]
    rw [hc]
    by_cases h : isCall t <;> simp [h, ih]

/-! ## Claim theorems -/

/-- C1: the claim says that after `stop()` the inbound queue holds exactly
the pending notifications of all queued batches (the last included) and no
pending calls. The code does the opposite of both halves: evaluated at a
queue holding one batch of a call and a notification, the `[front, back)`
walk of `Server.stop` never visits the single (last) batch, so the pending
call survives in the queue; the keep-filter the walk applies to visited
batches retains exactly the requests with ids (the calls) and drops the
notifications, contradicting the claim and the code's own comment and log
line; and with two or more queued batches the walk dereferences the
removed front element (nil) and panics. -/
theorem C1_stop_violates_notification_retention :
    stopWalk [[callReq, noteReq]] = some [[callReq, noteReq]]
    ∧ stopKeep [callReq, noteReq] = [callReq]
    ∧ callReq.ID = some "1" ∧ noteReq.ID = none
    ∧ stopWalk [[noteReq], [noteReq]] = none := by
  refine ⟨rfl, by decide, rfl, rfl, rfl⟩

/-- C2 counterexample: a call with id 1 is processed to completion (its
response is produced for the flush), yet the used set afterwards still
contains "1", and a second batch reusing id 1 is rejected as a duplicate —
refuting the claim that an ID is removed after its response is written and
that a later request reusing it is not rejected. -/
theorem C2_counterexample :
    (processBatch cfgM okHandler [] [callReq]).1
      = [{ V := Version, ID := some "1", R := some "5", E := none }]
    ∧ (processBatch cfgM okHandler [] [callReq]).2 = ["1"]
    ∧ (processBatch cfgM okHandler
          (processBatch cfgM okHandler [] [callReq]).2 [callReq]).1
      = [{ V := Version, ID := some "1", R := none,
           E := some ⟨E_InvalidRequest, "duplicate request id \"1\""⟩ }] := by
  refine ⟨by decide, by decide, by decide⟩

/-- C2 (amended): the active-ID set only grows while the server runs — ids
are added on admission and never removed by batch processing (including the
response write, which leaves the set as validation left it); consequently a
later request whose normalized id is already in the set is rejected as a
duplicate Invalid request, not accepted. -/
theorem C2_amended_used_never_removed (cfg : ServerCfg)
    (handler : JRequest → Except GoError String) (used : List String)
    (batch : JRequests) (r : JRequest) :
    used ⊆ (processBatch cfg handler used batch).2
    ∧ (idString (fixID r.ID) ≠ "" → idString (fixID r.ID) ∈ used →
        (checkRequest cfg used r).1.err
          = some (.structured E_InvalidRequest
              ("duplicate request id " ++ goQuote (idString (fixID r.ID))))) := by
  constructor
  · rw [processBatch_snd]
    exact checkBatch_used_mono cfg batch used
  · intro h1 h2
    rw [checkRequest_err]
    have hadd : (setAdd used (idString (fixID r.ID))).1 = false := by
      unfold setAdd; simp [h2]
    simp [h1, hadd]

/-- C2 amended, witnessed at a concrete run: id "1" admitted into an empty
used set survives the batch, and a reuse of id "1" against the used set
["1"] is marked a duplicate. -/
theorem C2_amended_witness :
    [] ⊆ (processBatch cfgM okHandler [] [callReq]).2
    ∧ (checkRequest cfgM ["1"] callReq).1.err
      = some (.structured E_InvalidRequest "duplicate request id \"1\"") := by
  refine ⟨(C2_amended_used_never_removed cfgM okHandler [] [callReq] callReq).1, ?_⟩
  have h := (C2_amended_used_never_removed cfgM okHandler ["1"] [callReq] callReq).2
    (by decide) (by decide)
  simpa using h

/-- C3: a notification (absent id) never yields a response entry — even
when its handler or validation recorded an error — and the response list
produced for a processed batch has exactly one entry per non-notification
request of the batch; moreover `Server.dispatch` discards the error a
notification's handler returns. -/
theorem C3_notification_and_batch_length :
    (∀ (cfg : ServerCfg) (handler : JRequest → Except GoError String)
        (used : List String) (batch : JRequests),
      (processBatch cfg handler used batch).1.length
        = (batch.filter (fun r => r.ID.isSome)).length)
    ∧ (∀ t : Task, t.req.ID = none → taskResponse t = none)
    ∧ (∀ (handler : JRequest → Except GoError String) (req : JRequest)
          (e : GoError), req.ID = none → handler req = .error e →
        dispatch handler req = .ok none) := by
  refine ⟨?_, ?_, ?_⟩
  · intro cfg handler used batch
    rw [processBatch_fst, tasksResponses_length, filter_isCall_map_runTask,
      checkBatch_filter_length]
  · intro t h
    exact (taskResponse_eq_none_iff t).mpr h
  · intro handler req e hid herr
    unfold dispatch
    rw [herr]
    simp [hid]

/-- C3 witnessed concretely: a batch of one call and one notification
produces one response; a notification task carrying an error produces no
response entry; and the dispatcher maps a notification handler's error to
a silent success. -/
theorem C3_witness :
    (processBatch cfgM failHandler [] [callReq, noteReq]).1.length
      = ([callReq, noteReq].filter (fun r => r.ID.isSome)).length
    ∧ ([callReq, noteReq].filter (fun r => r.ID.isSome)).length = 1
    ∧ taskResponse { req := noteReq, err := some (.plain "boom") } = none
    ∧ dispatch failHandler noteReq = .ok none := by
  refine ⟨C3_notification_and_batch_length.1 cfgM failHandler [] [callReq, noteReq],
    by decide,
    C3_notification_and_batch_length.2.1 { req := noteReq, err := some (.plain "boom") }
      rfl,
    C3_notification_and_batch_length.2.2 failHandler noteReq (.plain "boom") rfl rfl⟩

/-- C4: for each outcome of one receive-loop iteration — a recoverable
decode error (a JSON type or unsupported-type mismatch, not a syntax error)
enqueues nothing and emits a standalone error response with a null id and
code −32700; a JSON syntax error or an I/O error from the channel
terminates the session with that error; a decoded empty batch emits a
standalone Invalid request error; and a decoded non-empty batch is pushed
onto the back of the FIFO inbound queue (with the dispatcher broadcast). -/
theorem C4_receive_loop (decode : String → Except GoIOError JRequests)
    (bits : String) (inq : List JRequests) :
    (decode bits = .error .jsonTypeErr ∨ decode bits = .error .jsonUnsupportedTypeErr →
      readStep decode bits none
        = .emit (pushErrorResponse none E_ParseError "invalid JSON request message")
      ∧ applyRead inq (readStep decode bits none) = inq)
    ∧ (decode bits = .error .jsonSyntaxErr →
      readStep decode bits none = .terminate (some .jsonSyntaxErr))
    ∧ (∀ m : String, readStep decode bits (some (.other m))
        = .terminate (some (.other m)))
    ∧ (decode bits = .ok [] →
      readStep decode bits none
        = .emit (pushErrorResponse none E_InvalidRequest "empty request batch")
      ∧ applyRead inq (readStep decode bits none) = inq)
    ∧ (∀ (r : JRequest) (rs : JRequests), decode bits = .ok (r :: rs) →
      readStep decode bits none = .enqueue (r :: rs)
      ∧ applyRead inq (readStep decode bits none) = inq ++ [r :: rs]) := by
  refine ⟨?_, ?_, ?_, ?_, ?_⟩
  · rintro (h | h) <;>
      (unfold readStep; simp [h, isRecoverableJSONError, applyRead])
  · intro h
    unfold readStep
    simp [h, isRecoverableJSONError]
  · intro m
    unfold readStep
    simp [isRecoverableJSONError]
  · intro h
    unfold readStep
    simp [h, isRecoverableJSONError, applyRead]
  · intro r rs h
    unfold readStep
    simp [h, isRecoverableJSONError, applyRead]

/-- C4 witnessed at concrete decode outcomes: a type mismatch yields the
−32700 standalone error and leaves the queue alone, a syntax error and an
I/O error terminate, an empty batch yields the −32600 standalone error, and
a one-request batch is appended to the back of the queue. -/
theorem C4_witness :
    readStep (fun _ => .error .jsonTypeErr) "x" none
      = .emit (pushErrorResponse none E_ParseError "invalid JSON request message")
    ∧ readStep (fun _ => .error .jsonSyntaxErr) "x" none
      = .terminate (some .jsonSyntaxErr)
    ∧ readStep (fun _ => .ok [callReq]) "b" (some (.other "pipe broken"))
      = .terminate (some (.other "pipe broken"))
    ∧ readStep (fun _ => .ok ([] : JRequests)) "[]" none
      = .emit (pushErrorResponse none E_InvalidRequest "empty request batch")
    ∧ readStep (fun _ => .ok [callReq]) "b" none = .enqueue [callReq]
    ∧ applyRead [[noteReq]] (readStep (fun _ => .ok [callReq]) "b" none)
      = [[noteReq], [callReq]] := by
  refine ⟨((C4_receive_loop (fun _ => .error .jsonTypeErr) "x" []).1 (Or.inl rfl)).1,
    (C4_receive_loop (fun _ => .error .jsonSyntaxErr) "x" []).2.1 rfl,
    (C4_receive_loop (fun _ => .ok [callReq]) "b" []).2.2.1 "pipe broken",
    ((C4_receive_loop (fun _ => .ok ([] : JRequests)) "[]" []).2.2.2.1 rfl).1,
    ((C4_receive_loop (fun _ => .ok [callReq]) "b" []).2.2.2.2 callReq [] rfl).1,
    ?_⟩
  have h := ((C4_receive_loop (fun _ => .ok [callReq]) "b" [[noteReq]]).2.2.2.2
    callReq [] rfl).2
  simpa using h

/-- C5: a request whose normalized, non-empty id is already in the active
set is marked with an Invalid request error (duplicate request id), while
the first request bearing a fresh id passes the duplicate check and — when
the version, method-name, and assigner checks also pass — is runnable; in
one batch repeating the same id, the first task is runnable and the second
is marked the duplicate. -/
theorem C5_duplicate_id_marking (cfg : ServerCfg) (used : List String)
    (r : JRequest) :
    (idString (fixID r.ID) ≠ "" → idString (fixID r.ID) ∈ used →
      (checkRequest cfg used r).1.err
        = some (.structured E_InvalidRequest
            ("duplicate request id " ++ goQuote (idString (fixID r.ID)))))
    ∧ (idString (fixID r.ID) ≠ "" → idString (fixID r.ID) ∉ used →
        versionOK cfg.allow1 r.V = true → r.M ≠ "" → serverAssign cfg r.M = true →
      (checkRequest cfg used r).1.err = none
      ∧ (checkBatch cfg used [r, r]).1.map Task.err
          = [none,
             some (.structured E_InvalidRequest
               ("duplicate request id " ++ goQuote (idString (fixID r.ID))))]) := by
  constructor
  · intro h1 h2
    rw [checkRequest_err]
    have hadd : (setAdd used (idString (fixID r.ID))).1 = false := by
      unfold setAdd; simp [h2]
    simp [h1, hadd]
  · intro h1 h2 hv hm ha
    have hadd : setAdd used (idString (fixID r.ID))
        = (true, idString (fixID r.ID) :: used) := by
      unfold setAdd; simp [h2]
    have herr1 : (checkRequest cfg used r).1.err = none := by
      rw [checkRequest_err]
      simp [hadd, hv, hm, ha]
    refine ⟨herr1, ?_⟩
    have hused1 : (checkRequest cfg used r).2 = idString (fixID r.ID) :: used := by
      rw [checkRequest_snd]
      simp [h1, hadd]
    have herr2 : (checkRequest cfg (idString (fixID r.ID) :: used) r).1.err
        = some (.structured E_InvalidRequest
            ("duplicate request id " ++ goQuote (idString (fixID r.ID)))) := by
      rw [checkRequest_err]
      have hadd2 : (setAdd (idString (fixID r.ID) :: used)
          (idString (fixID r.ID))).1 = false := by
        unfold setAdd; simp
      simp [h1, hadd2]
    rw [checkBatch_cons, checkBatch_cons, checkBatch_nil]
    simp [herr1, hused1, herr2]

/-- C5 witnessed: with the method "m" registered, id "1" fresh in an empty
set is runnable, and the second occurrence of id "1" in the same batch is
marked the duplicate Invalid request. -/
theorem C5_witness :
    (checkRequest cfgM ["1"] callReq).1.err
      = some (.structured E_InvalidRequest "duplicate request id \"1\"")
    ∧ (checkRequest cfgM [] callReq).1.err = none
    ∧ (checkBatch cfgM [] [callReq, callReq]).1.map Task.err
      = [none, some (.structured E_InvalidRequest "duplicate request id \"1\"")] := by
  have h1 := (C5_duplicate_id_marking cfgM ["1"] callReq).1 (by decide) (by decide)
  have h2 := (C5_duplicate_id_marking cfgM [] callReq).2 (by decide) (by decide)
    (by decide) (by decide) (by decide)
  exact ⟨by simpa using h1, h2.1, by simpa using h2.2⟩

/-- C6: per-request validation — an empty version marker is accepted
exactly when the server is v1-compatible (otherwise it is an incorrect
version marker, Invalid request); a non-empty marker must equal "2.0" or
the request is an Invalid request; with an acceptable version, an empty
method name is an Invalid request; and a method name the assigner does not
resolve is a Method not found. All under a non-duplicate id. -/
theorem C6_version_method_validation (cfg : ServerCfg) (used : List String)
    (r : JRequest)
    (hfresh : idString (fixID r.ID) = "" ∨ idString (fixID r.ID) ∉ used) :
    (r.V = "" → cfg.allow1 = false →
      (checkRequest cfg used r).1.err
        = some (.structured E_InvalidRequest
            ("incorrect version marker " ++ goQuote r.V)))
    ∧ (r.V = "" → cfg.allow1 = true → r.M ≠ "" → serverAssign cfg r.M = true →
      (checkRequest cfg used r).1.err = none)
    ∧ (r.V ≠ "" → r.V ≠ Version →
      (checkRequest cfg used r).1.err
        = some (.structured E_InvalidRequest
            ("incorrect version marker " ++ goQuote r.V)))
    ∧ (r.V = Version → r.M ≠ "" → serverAssign cfg r.M = true →
      (checkRequest cfg used r).1.err = none)
    ∧ (versionOK cfg.allow1 r.V = true → r.M = "" →
      (checkRequest cfg used r).1.err
        = some (.structured E_InvalidRequest "empty method name"))
    ∧ (versionOK cfg.allow1 r.V = true → r.M ≠ "" → serverAssign cfg r.M = false →
      (checkRequest cfg used r).1.err
        = some (.structured E_MethodNotFound ("no such method " ++ goQuote r.M))) := by
  have hdup : ¬(idString (fixID r.ID) ≠ ""
      ∧ (setAdd used (idString (fixID r.ID))).1 = false) := by
    rcases hfresh with h | h
    · intro hc; exact hc.1 h
    · intro hc
      have : (setAdd used (idString (fixID r.ID))).1 = true := by
        unfold setAdd; simp [h]
      rw [this] at hc
      exact Bool.noConfusion hc.2
  refine ⟨?_, ?_, ?_, ?_, ?_, ?_⟩
  · intro hv hallow
    have hvok : versionOK cfg.allow1 r.V = false := by
      unfold versionOK; simp [hv, hallow]
    rw [checkRequest_err]
    simp [hdup, hvok]
  · intro hv hallow hm ha
    have hvok : versionOK cfg.allow1 r.V = true := by
      unfold versionOK; simp [hv, hallow]
    rw [checkRequest_err]
    simp [hdup, hvok, hm, ha]
  · intro hv hv2
    have hvok : versionOK cfg.allow1 r.V = false := by
      unfold versionOK; simp [hv, hv2]
    rw [checkRequest_err]
    simp [hdup, hvok]
  · intro hv hm ha
    have hvok : versionOK cfg.allow1 r.V = true := by
      unfold versionOK
      rw [hv, if_neg (by decide)]
      decide
    rw [checkRequest_err]
    simp [hvok, hdup, hm, ha]
  · intro hvok hm
    rw [checkRequest_err]
    simp [hdup, hvok, hm]
  · intro hvok hm ha
    rw [checkRequest_err]
    simp [hdup, hvok, hm, ha]

/-- C6 witnessed: with v1 mode off, an empty version marker or the marker
"1.0" is an incorrect version marker; with v1 mode on, an unversioned
request to a registered method is runnable; "2.0" with an empty method
name is an empty-method Invalid request; and an unregistered method is a
Method not found. -/
theorem C6_witness :
    (checkRequest cfgM [] { V := "", ID := some "7", M := "m", P := "" }).1.err
      = some (.structured E_InvalidRequest "incorrect version marker \"\"")
    ∧ (checkRequest ⟨true, false, fun n => n == "m"⟩ []
        { V := "", ID := some "7", M := "m", P := "" }).1.err = none
    ∧ (checkRequest cfgM [] { V := "1.0", ID := some "7", M := "m", P := "" }).1.err
      = some (.structured E_InvalidRequest "incorrect version marker \"1.0\"")
    ∧ (checkRequest cfgM [] { V := "2.0", ID := some "7", M := "", P := "" }).1.err
      = some (.structured E_InvalidRequest "empty method name")
    ∧ (checkRequest cfgM [] { V := "2.0", ID := some "7", M := "nope", P := "" }).1.err
      = some (.structured E_MethodNotFound "no such method \"nope\"") := by
  refine ⟨?_, ?_, ?_, ?_, ?_⟩
  · have h := (C6_version_method_validation cfgM []
      { V := "", ID := some "7", M := "m", P := "" } (Or.inr (by decide))).1
      rfl rfl
    simpa using h
  · exact (C6_version_method_validation ⟨true, false, fun n => n == "m"⟩ []
      { V := "", ID := some "7", M := "m", P := "" } (Or.inr (by decide))).2.1
      rfl rfl (by decide) (by decide)
  · have h := (C6_version_method_validation cfgM []
      { V := "1.0", ID := some "7", M := "m", P := "" } (Or.inr (by decide))).2.2.1
      (by decide) (by decide)
    simpa using h
  · exact (C6_version_method_validation cfgM []
      { V := "2.0", ID := some "7", M := "", P := "" } (Or.inr (by decide))).2.2.2.2.1
      (by decide) rfl
  · have h := (C6_version_method_validation cfgM []
      { V := "2.0", ID := some "7", M := "nope", P := "" }
      (Or.inr (by decide))).2.2.2.2.2 (by decide) (by decide) (by decide)
    simpa using h

theorem hdrRecv_eq (mtype stream : Bytes) (p : Headers) (rest : Bytes)
    (hh : readHeaders stream [] = .ok (p, rest)) :
    hdrRecv mtype stream
      = match hdrChecks mtype p with
        | .error e => .error e
        | .ok size => readFull rest size := by
  unfold hdrRecv
  rw [hh]

theorem hdrChecks_ct_mismatch (mtype : Bytes) (p : Headers) (c : Bytes)
    (hct : hget p ctKey = some c) (hne : c ≠ mtype) :
    hdrChecks mtype p = .error "invalid content-type" := by
  unfold hdrChecks
  rw [hct]
  simp [hne]

theorem hdrChecks_pass_ct (mtype : Bytes) (p : Headers)
    (hct : hget p ctKey = none ∨ hget p ctKey = some mtype) :
    hdrChecks mtype p = checkContentLength p := by
  unfold hdrChecks
  rcases hct with h | h
  · rw [h]
  · rw [h]; simp

theorem checkContentLength_missing (p : Headers) (hcl : hget p clKey = none) :
    checkContentLength p = .error "missing required content-length" := by
  unfold checkContentLength
  rw [hcl]

theorem checkContentLength_bad (p : Headers) (s : Bytes)
    (hcl : hget p clKey = some s) (hbad : atoi s = none) :
    checkContentLength p = .error "invalid content-length" := by
  unfold checkContentLength
  rw [hcl]
  simp [hbad]

theorem checkContentLength_neg (p : Headers) (s : Bytes) (k : Int)
    (hcl : hget p clKey = some s) (hk : atoi s = some k) (hneg : k < 0) :
    checkContentLength p = .error "invalid content-length" := by
  unfold checkContentLength
  rw [hcl]
  simp [hk, hneg]

/-- C7 counterexample to the Raw half of the round-trip claim: the payload
`␣"a"` (a JSON string preceded by one space) is written verbatim by
`raw.Send`, but `raw.Recv` returns the decoded value bytes `"a"` with the
leading whitespace stripped, so recv∘send is not the identity on arbitrary
payloads. -/
theorem C7_counterexample :
    rawSend (' ' :: '"' :: 'a' :: '"' :: []) = ' ' :: '"' :: 'a' :: '"' :: []
    ∧ rawRecv (rawSend (' ' :: '"' :: 'a' :: '"' :: []))
      = some ('"' :: 'a' :: '"' :: [])
    ∧ ('"' :: 'a' :: '"' :: []) ≠ (' ' :: '"' :: 'a' :: '"' :: []) := by
  refine ⟨rfl, by decide, by decide⟩

/-- C7 (amended): for the Header framing, recv∘send returns exactly the
payload for every payload (and consumes the whole sent stream); for the Raw
framing the round-trip holds for payloads that are exactly one JSON value
with no surrounding whitespace, not for arbitrary byte contents. -/
theorem C7_framing_roundtrip :
    (∀ mime msg : Bytes, mimeOK mime →
      hdrRecv mime (hdrSend mime msg) = .ok (msg, []))
    ∧ (∀ msg : Bytes, jsonNextValue msg = some (msg, []) →
      rawRecv (rawSend msg) = some msg) := by
  constructor
  · exact fun mime msg h => hdrRecv_hdrSend mime msg h
  · intro msg h
    unfold rawRecv rawSend
    rw [h]
    rfl

/-- C7 witnessed: the payload "hello" round-trips through the JSON-preset
Header framing, and the exact JSON value `[1,2]` round-trips through Raw. -/
theorem C7_witness :
    mimeOK "application/json".data
    ∧ hdrRecv "application/json".data
        (hdrSend "application/json".data "hello".data) = .ok ("hello".data, [])
    ∧ jsonNextValue "[1,2]".data = some ("[1,2]".data, [])
    ∧ rawRecv (rawSend "[1,2]".data) = some "[1,2]".data := by
  have h1 : mimeOK "application/json".data := by decide
  have h2 : jsonNextValue "[1,2]".data = some ("[1,2]".data, []) := by decide
  exact ⟨h1, C7_framing_roundtrip.1 "application/json".data "hello".data h1,
    h2, C7_framing_roundtrip.2 "[1,2]".data h2⟩

/-- C8: `hdr.Recv` errors when the parsed header block carries a
Content-Type different from the channel's MIME type, and — with an
acceptable Content-Type — when Content-Length is missing, non-numeric, or
negative; the checks consult only the content-type and content-length
fields, so all other header fields are ignored. -/
theorem C8_header_recv_rejects (mtype stream : Bytes) (p : Headers)
    (rest : Bytes) (hh : readHeaders stream [] = .ok (p, rest)) :
    (∀ c, hget p ctKey = some c → c ≠ mtype →
      hdrRecv mtype stream = .error "invalid content-type")
    ∧ (hget p ctKey = none ∨ hget p ctKey = some mtype →
        (hget p clKey = none →
          hdrRecv mtype stream = .error "missing required content-length")
        ∧ (∀ s, hget p clKey = some s → atoi s = none →
          hdrRecv mtype stream = .error "invalid content-length")
        ∧ (∀ s k, hget p clKey = some s → atoi s = some k → k < 0 →
          hdrRecv mtype stream = .error "invalid content-length"))
    ∧ (∀ p2 : Headers, hget p ctKey = hget p2 ctKey →
        hget p clKey = hget p2 clKey →
        hdrChecks mtype p = hdrChecks mtype p2) := by
  refine ⟨?_, ?_, ?_⟩
  · intro c hct hne
    rw [hdrRecv_eq mtype stream p rest hh, hdrChecks_ct_mismatch mtype p c hct hne]
  · intro hct
    refine ⟨?_, ?_, ?_⟩
    · intro hcl
      rw [hdrRecv_eq mtype stream p rest hh, hdrChecks_pass_ct mtype p hct,
        checkContentLength_missing p hcl]
    · intro s hcl hbad
      rw [hdrRecv_eq mtype stream p rest hh, hdrChecks_pass_ct mtype p hct,
        checkContentLength_bad p s hcl hbad]
    · intro s k hcl hk hneg
      rw [hdrRecv_eq mtype stream p rest hh, hdrChecks_pass_ct mtype p hct,
        checkContentLength_neg p s k hcl hk hneg]
  · intro p2 h1 h2
    unfold hdrChecks checkContentLength
    rw [h1, h2]

/-- C8 witnessed on four concrete incoming streams against the
`application/json` channel: a `text/plain` Content-Type is rejected, a
stream without Content-Length is rejected, a non-numeric and a negative
Content-Length are rejected, and an unknown extra header field does not
change the outcome of the checks. -/
theorem C8_witness :
    hdrRecv "application/json".data
        "Content-Type: text/plain\r\nContent-Length: 2\r\n\r\nhi".data
      = .error "invalid content-type"
    ∧ hdrRecv "application/json".data "Foo: bar\r\n\r\nhi".data
      = .error "missing required content-length"
    ∧ hdrRecv "application/json".data "Content-Length: 12a\r\n\r\nhi".data
      = .error "invalid content-length"
    ∧ hdrRecv "application/json".data "Content-Length: -1\r\n\r\nhi".data
      = .error "invalid content-length"
    ∧ hdrChecks "application/json".data
        [(ctKey, "application/json".data), (clKey, "2".data),
         ("x-extra".data, "yes".data)]
      = hdrChecks "application/json".data
        [(ctKey, "application/json".data), (clKey, "2".data)] := by
  have hh1 : readHeaders
      "Content-Type: text/plain\r\nContent-Length: 2\r\n\r\nhi".data []
      = .ok ([(ctKey, "text/plain".data), (clKey, "2".data)], "hi".data) := by
    simp [readHeaders, readLine, trimRightCRLF, splitColon, toLowerB, lowerChar,
      trimSpace, hset, clKey, ctKey, isCRLF, isSpace]
  have hh2 : readHeaders "Foo: bar\r\n\r\nhi".data []
      = .ok ([("foo".data, "bar".data)], "hi".data) := by
    simp [readHeaders, readLine, trimRightCRLF, splitColon, toLowerB, lowerChar,
      trimSpace, hset, isCRLF, isSpace]
  have hh3 : readHeaders "Content-Length: 12a\r\n\r\nhi".data []
      = .ok ([(clKey, "12a".data)], "hi".data) := by
    simp [readHeaders, readLine, trimRightCRLF, splitColon, toLowerB, lowerChar,
      trimSpace, hset, clKey, isCRLF, isSpace]
  have hh4 : readHeaders "Content-Length: -1\r\n\r\nhi".data []
      = .ok ([(clKey, "-1".data)], "hi".data) := by
    simp [readHeaders, readLine, trimRightCRLF, splitColon, toLowerB, lowerChar,
      trimSpace, hset, clKey, isCRLF, isSpace]
  refine ⟨?_, ?_, ?_, ?_, ?_⟩
  · exact (C8_header_recv_rejects "application/json".data _ _ _ hh1).1
      "text/plain".data rfl (by decide)
  · exact ((C8_header_recv_rejects "application/json".data _ _ _ hh2).2.1
      (Or.inl rfl)).1 rfl
  · exact ((C8_header_recv_rejects "application/json".data _ _ _ hh3).2.1
      (Or.inl rfl)).2.1 "12a".data rfl (by decide)
  · exact ((C8_header_recv_rejects "application/json".data _ _ _ hh4).2.1
      (Or.inl rfl)).2.2 "-1".data (-1) rfl (by decide) (by decide)
  · have hh5 : readHeaders
        "Content-Type: application/json\r\nContent-Length: 2\r\nX-Extra: yes\r\n\r\nhi".data []
        = .ok ([(ctKey, "application/json".data), (clKey, "2".data),
            ("x-extra".data, "yes".data)], "hi".data) := by
      simp [readHeaders, readLine, trimRightCRLF, splitColon, toLowerB, lowerChar,
        trimSpace, hset, clKey, ctKey, isCRLF, isSpace]
    exact (C8_header_recv_rejects "application/json".data _ _ _ hh5).2.2
      [(ctKey, "application/json".data), (clKey, "2".data)] rfl rfl

/-- C9: for a runnable non-notification task whose handler returns an
error, a structured error's code and message are carried into the response
error object as-is, while a plain error is wrapped as code −32603 Internal
error. -/
theorem C9_handler_error_mapping (handler : JRequest → Except GoError String)
    (t : Task) (id : String) (hid : t.req.ID = some id) (hrun : t.err = none) :
    (∀ c m, handler t.req = .error (.structured c m) →
      taskResponse (runTask handler t)
        = some { V := Version, ID := some id, R := none, E := some ⟨c, m⟩ })
    ∧ (∀ m, handler t.req = .error (.plain m) →
      taskResponse (runTask handler t)
        = some { V := Version, ID := some id, R := none,
                 E := some ⟨-32603, "internal error: " ++ m⟩ }) := by
  have hrt : ∀ e : GoError, handler t.req = .error e →
      runTask handler t = { t with val := none, err := some e } := by
    intro e he
    have hd : dispatch handler t.req = .error e := by
      unfold dispatch
      rw [he, hid]
      simp
    unfold runTask
    rw [hd]
    simp [hrun]
  constructor
  · intro c m he
    rw [hrt (.structured c m) he]
    unfold taskResponse
    simp [hid]
    rfl
  · intro m he
    rw [hrt (.plain m) he]
    unfold taskResponse
    simp [hid]
    rfl

/-- C9 witnessed: a structured error with code −32000 is carried as-is for
the call with id 1, and a plain error is wrapped as −32603 Internal
error. -/
theorem C9_witness :
    taskResponse (runTask codeHandler { req := callReq })
      = some { V := Version, ID := some "1", R := none,
               E := some ⟨-32000, "sys"⟩ }
    ∧ taskResponse (runTask failHandler { req := callReq })
      = some { V := Version, ID := some "1", R := none,
               E := some ⟨-32603, "internal error: boom"⟩ } :=
  ⟨(C9_handler_error_mapping codeHandler { req := callReq } "1" rfl rfl).1
      (-32000) "sys" rfl,
    (C9_handler_error_mapping failHandler { req := callReq } "1" rfl rfl).2
      "boom" rfl⟩

/-- C10: a Header framing built with an empty MIME type omits the
Content-Type header from the sent bytes entirely; on receive, an incoming
Content-Type header whose (trimmed) value is non-empty fails the comparison
against the empty MIME type and is rejected, while a message with no
Content-Type header is accepted — in particular the sent form round-trips. -/
theorem C10_empty_mime (msg stream : Bytes) (p : Headers) (rest : Bytes)
    (hh : readHeaders stream [] = .ok (p, rest)) :
    hdrSend [] msg
      = "Content-Length: ".data
          ++ (itoa msg.length ++ ('\r' :: '\n' :: ('\r' :: '\n' :: msg)))
    ∧ (∀ c, hget p ctKey = some c → c ≠ [] →
      hdrRecv [] stream = .error "invalid content-type")
    ∧ hdrRecv [] (hdrSend [] msg) = .ok (msg, []) := by
  refine ⟨?_, ?_, ?_⟩
  · unfold hdrSend
    simp
  · intro c hct hne
    rw [hdrRecv_eq [] stream p rest hh, hdrChecks_ct_mismatch [] p c hct hne]
  · exact hdrRecv_hdrSend [] msg (by decide)

/-- C10 witnessed: sending "hi" over the empty-MIME Header framing emits no
Content-Type line and the message is accepted back; an incoming message
bearing `Content-Type: application/json` is rejected against the empty
MIME type. -/
theorem C10_witness :
    hdrSend [] "hi".data = "Content-Length: 2\r\n\r\nhi".data
    ∧ hdrRecv []
        "Content-Type: application/json\r\nContent-Length: 2\r\n\r\nhi".data
      = .error "invalid content-type"
    ∧ hdrRecv [] (hdrSend [] "hi".data) = .ok ("hi".data, []) := by
  have hh : readHeaders
      "Content-Type: application/json\r\nContent-Length: 2\r\n\r\nhi".data []
      = .ok ([(ctKey, "application/json".data), (clKey, "2".data)], "hi".data) := by
    simp [readHeaders, readLine, trimRightCRLF, splitColon, toLowerB, lowerChar,
      trimSpace, hset, clKey, ctKey, isCRLF, isSpace]
  have h := C10_empty_mime "hi".data
    "Content-Type: application/json\r\nContent-Length: 2\r\n\r\nhi".data
    [(ctKey, "application/json".data), (clKey, "2".data)] "hi".data hh
  refine ⟨?_, h.2.1 "application/json".data rfl (by decide), h.2.2⟩
  have h1 := h.1
  rw [h1]
  simp [itoa, itoaCore, digitChar]

end Jrpc2
